import Mathlib

set_option maxHeartbeats 1000000

/-!
A shallow embedding of `gridstatus/eia.py`: the paged EIA API fetcher
(`EIA.get_dataset` with its inner `fetch_page_wrapper`) and the dataset
transforms (`_handle_time`, `_handle_region_data`, `_handle_rto_interchange`,
`DATASET_HANDLERS`), together with theorems checking the specification's
claims about them.

Tables (`pandas.DataFrame`) are modelled as a list of column names plus a
list of rows, each row a list of cell values.  Cell values (`Val`) cover the
kinds of value the embedded code manipulates: strings, nullable 64-bit
integers (`Int64`), rationals (standing for floats), timezone-aware UTC
timestamps (counted in minutes, produced by `pd.to_datetime(..., utc=True)`)
and the missing value (`NaN` / `pd.NA` / `None`).
-/

/-- Executable lexicographic (code-point) comparison of character lists;
stands for the string order (Python compares strings this way), avoiding
the built-in `String` order whose decision procedure does not reduce. -/
def charsLe : List Char → List Char → Bool
  | [], _ => true
  | _ :: _, [] => false
  | a :: as, b :: bs => if a = b then charsLe as bs else decide (a < b)

/-- Lexicographic order on strings, by code points. -/
def strLe (x y : String) : Bool := charsLe x.data y.data

theorem charsLe_total (l₁ l₂ : List Char) : charsLe l₁ l₂ = true ∨ charsLe l₂ l₁ = true := by
  induction l₁ generalizing l₂ with
  | nil => left; simp [charsLe]
  | cons a as ih =>
    cases l₂ with
    | nil => right; simp [charsLe]
    | cons b bs =>
      by_cases hab : a = b
      · subst hab
        rcases ih bs with h | h
        · left; simpa [charsLe] using h
        · right; simpa [charsLe] using h
      · rcases lt_or_gt_of_ne hab with h | h
        · left; simp [charsLe, hab, h]
        · right; simp [charsLe, Ne.symm hab, h]

theorem charsLe_trans {l₁ l₂ l₃ : List Char} (h12 : charsLe l₁ l₂ = true)
    (h23 : charsLe l₂ l₃ = true) : charsLe l₁ l₃ = true := by
  induction l₁ generalizing l₂ l₃ with
  | nil => simp [charsLe]
  | cons a as ih =>
    cases l₂ with
    | nil => simp [charsLe] at h12
    | cons b bs =>
      cases l₃ with
      | nil => simp [charsLe] at h23
      | cons c cs =>
        by_cases hab : a = b <;> by_cases hbc : b = c
        · subst hab; subst hbc
          simp only [charsLe, if_pos rfl] at h12 h23 ⊢
          exact ih h12 h23
        · subst hab
          simp only [charsLe, if_neg hbc] at h23 ⊢
          exact h23
        · subst hbc
          simp only [charsLe, if_neg hab] at h12 ⊢
          exact h12
        · simp only [charsLe, if_neg hab, decide_eq_true_eq] at h12
          simp only [charsLe, if_neg hbc, decide_eq_true_eq] at h23
          have hlt : a < c := lt_trans h12 h23
          simp [charsLe, if_neg (ne_of_lt hlt), hlt]

theorem charsLe_antisymm {l₁ l₂ : List Char} (h12 : charsLe l₁ l₂ = true)
    (h21 : charsLe l₂ l₁ = true) : l₁ = l₂ := by
  induction l₁ generalizing l₂ with
  | nil =>
    cases l₂ with
    | nil => rfl
    | cons b bs => simp [charsLe] at h21
  | cons a as ih =>
    cases l₂ with
    | nil => simp [charsLe] at h12
    | cons b bs =>
      by_cases hab : a = b
      · subst hab
        simp only [charsLe, if_pos rfl] at h12 h21
        rw [ih h12 h21]
      · simp only [charsLe, if_neg hab, if_neg (Ne.symm hab), decide_eq_true_eq] at h12 h21
        exact absurd (lt_trans h12 h21) (lt_irrefl a)

theorem strLe_total (x y : String) : strLe x y = true ∨ strLe y x = true :=
  charsLe_total _ _

theorem strLe_trans {x y z : String} (h1 : strLe x y = true) (h2 : strLe y z = true) :
    strLe x z = true :=
  charsLe_trans h1 h2

theorem strLe_antisymm {x y : String} (h1 : strLe x y = true) (h2 : strLe y x = true) :
    x = y :=
  String.ext (charsLe_antisymm h1 h2)

/-- The string order as a proposition (sorting pivot column labels). -/
def strLeP (x y : String) : Prop := strLe x y = true

instance : DecidableRel strLeP := fun a b => by
  unfold strLeP; infer_instance

instance : IsTotal String strLeP := ⟨strLe_total⟩

instance : IsTrans String strLeP := ⟨fun _ _ _ => strLe_trans⟩

instance : IsAntisymm String strLeP := ⟨fun _ _ => strLe_antisymm⟩

inductive Val where
  | str : String → Val
  | int : ℤ → Val
  | rat : ℚ → Val
  | time : ℤ → Val
  | na : Val
  deriving DecidableEq, Repr

namespace Val

/-- Is this the missing value? -/
def isNa : Val → Bool
  | .na => true
  | _ => false

/-- Nullable-integer (`Int64`) typed cell: an integer or missing. -/
def isIntNa : Val → Bool
  | .int _ => true
  | .na => true
  | _ => false

/-- Numeric-or-missing cell (what an aggregating pivot can consume). -/
def isNumNa : Val → Bool
  | .int _ => true
  | .rat _ => true
  | .na => true
  | _ => false

/-- Numeric reading of a cell (only used on numeric cells). -/
def toRat : Val → ℚ
  | .int n => (n : ℚ)
  | .rat q => q
  | _ => 0

/-- Constructor rank, used to compare cells of different kinds; the missing
value ranks last, matching pandas putting `NaN` last when sorting. -/
def rank : Val → Nat
  | .str _ => 0
  | .int _ => 1
  | .rat _ => 2
  | .time _ => 3
  | .na => 4

/-- Total comparison on cell values: same-kind cells compare by their payload,
different kinds by rank. -/
def ble : Val → Val → Bool
  | .str x, .str y => strLe x y
  | .int x, .int y => decide (x ≤ y)
  | .rat x, .rat y => decide (x ≤ y)
  | .time x, .time y => decide (x ≤ y)
  | a, b => decide (a.rank ≤ b.rank)

/-- The order on cell values as a proposition. -/
def le (a b : Val) : Prop := a.ble b = true

theorem le_total_val (a b : Val) : le a b ∨ le b a := by
  cases a <;> cases b <;> simp [le, ble, rank] <;>
    first
    | exact le_total _ _
    | exact strLe_total _ _
    | omega

theorem le_trans_val {a b c : Val} : le a b → le b c → le a c := by
  cases a <;> cases b <;> cases c <;>
    simp [le, ble, rank] <;>
    first
    | (intro h1 h2; exact le_trans h1 h2)
    | (intro h1 h2; exact strLe_trans h1 h2)
    | omega

theorem le_antisymm_val {a b : Val} : le a b → le b a → a = b := by
  cases a <;> cases b <;>
    simp [le, ble, rank] <;>
    first
    | (intro h1 h2; exact le_antisymm h1 h2)
    | (intro h1 h2; exact strLe_antisymm h1 h2)

instance : DecidableRel Val.le := fun a b => by
  unfold Val.le; infer_instance

instance : IsTotal Val Val.le := ⟨le_total_val⟩

instance : IsTrans Val Val.le := ⟨fun _ _ _ => le_trans_val⟩

instance : IsAntisymm Val Val.le := ⟨fun _ _ => le_antisymm_val⟩

/-- Lexicographic comparison of two equal-length key tuples (as pandas
`sort_values` with several keys, and the sorted pivot index, use). -/
def listBle : List Val → List Val → Bool
  | [], _ => true
  | _ :: _, [] => false
  | a :: as, b :: bs => if a = b then listBle as bs else a.ble b

/-- Lexicographic order on key tuples, as a proposition. -/
def listLe (l₁ l₂ : List Val) : Prop := listBle l₁ l₂ = true

instance : DecidableRel Val.listLe := fun a b => by
  unfold Val.listLe; infer_instance

theorem listLe_total (l₁ l₂ : List Val) : listLe l₁ l₂ ∨ listLe l₂ l₁ := by
  induction l₁ generalizing l₂ with
  | nil => left; simp [listLe, listBle]
  | cons a as ih =>
    cases l₂ with
    | nil => right; simp [listLe, listBle]
    | cons b bs =>
      by_cases hab : a = b
      · subst hab
        rcases ih bs with h | h
        · left; simpa [listLe, listBle] using h
        · right; simpa [listLe, listBle] using h
      · rcases le_total_val a b with h | h
        · left; simpa [listLe, listBle, hab] using h
        · right; simpa [listLe, listBle, Ne.symm hab] using h

theorem listLe_trans {l₁ l₂ l₃ : List Val} :
    listLe l₁ l₂ → listLe l₂ l₃ → listLe l₁ l₃ := by
  induction l₁ generalizing l₂ l₃ with
  | nil => intro _ _; simp [listLe, listBle]
  | cons a as ih =>
    cases l₂ with
    | nil => intro h; simp [listLe, listBle] at h
    | cons b bs =>
      cases l₃ with
      | nil => intro _ h; simp [listLe, listBle] at h
      | cons c cs =>
        intro h12 h23
        by_cases hab : a = b <;> by_cases hbc : b = c
        · subst hab; subst hbc
          simp only [listLe, listBle, if_pos rfl] at *
          exact ih h12 h23
        · subst hab
          simp only [listLe, listBle, if_pos rfl, if_neg hbc] at *
          exact h23
        · subst hbc
          simp only [listLe, listBle, if_pos rfl, if_neg hab] at *
          exact h12
        · by_cases hac : a = c
          · subst hac
            simp only [listLe, listBle, if_neg hab, if_neg hbc] at h12 h23
            exact absurd (le_antisymm_val h12 h23) hab
          · simp only [listLe, listBle, if_neg hab, if_neg hbc, if_neg hac] at *
            exact le_trans_val h12 h23

theorem listLe_antisymm {l₁ l₂ : List Val} :
    listLe l₁ l₂ → listLe l₂ l₁ → l₁ = l₂ := by
  induction l₁ generalizing l₂ with
  | nil =>
    cases l₂ with
    | nil => intro _ _; rfl
    | cons b bs => intro _ h; simp [listLe, listBle] at h
  | cons a as ih =>
    cases l₂ with
    | nil => intro h; simp [listLe, listBle] at h
    | cons b bs =>
      intro h12 h21
      by_cases hab : a = b
      · subst hab
        simp only [listLe, listBle, if_pos rfl] at h12 h21
        exact congrArg (a :: ·) (ih h12 h21)
      · simp only [listLe, listBle, if_neg hab, if_neg (Ne.symm hab)] at h12 h21
        exact absurd (le_antisymm_val h12 h21) hab

instance : IsTotal (List Val) Val.listLe := ⟨listLe_total⟩

instance : IsTrans (List Val) Val.listLe := ⟨fun _ _ _ => listLe_trans⟩

instance : IsAntisymm (List Val) Val.listLe := ⟨fun _ _ => listLe_antisymm⟩

end Val

/-- A `pandas.DataFrame`: named columns and positional rows; each row lists
one cell per column. -/
structure DF where
  cols : List String
  rows : List (List Val)
  deriving DecidableEq, Repr

/-- `Option` to `Except`, tagging the failure (a raised pandas `KeyError`
and the like). -/
def getEx (o : Option α) (e : String) : Except String α :=
  match o with
  | some a => .ok a
  | none => .error e

/-- Effectful map over a list in the `Except` monad, stopping at the first
failure (evaluation order of a Python comprehension that may raise). -/
def mapME (f : α → Except String β) : List α → Except String (List β)
  | [] => .ok []
  | a :: l =>
    match f a with
    | .error e => .error e
    | .ok b =>
      match mapME f l with
      | .error e => .error e
      | .ok bs => .ok (b :: bs)

theorem mapME_ok_of (f : α → Except String β) (g : α → β) (l : List α)
    (h : ∀ x ∈ l, f x = .ok (g x)) : mapME f l = .ok (l.map g) := by
  induction l with
  | nil => rfl
  | cons a l ih =>
    have ha := h a (by simp)
    have hl := ih (fun x hx => h x (by simp [hx]))
    simp [mapME, ha, hl]

theorem mapME_error_of (f : α → Except String β) (l₁ l₂ : List α) (x : α)
    (e : String) (h₁ : ∀ y ∈ l₁, ∃ b, f y = .ok b) (hx : f x = .error e) :
    mapME f (l₁ ++ x :: l₂) = .error e := by
  induction l₁ with
  | nil => simp [mapME, hx]
  | cons a l ih =>
    obtain ⟨b, hb⟩ := h₁ a (by simp)
    have hl := ih (fun y hy => h₁ y (by simp [hy]))
    simp [mapME, hb, hl]

/-! ## DataFrame operations used by the transforms -/

namespace DF

/-- Index of a column label (`None` when the label is absent). -/
def colIdx (df : DF) (c : String) : Option Nat :=
  df.cols.findIdx? (fun x => x = c)

/-- `df.rename({...}, axis=1)`: relabel matching columns, leave the rest. -/
def renameCols (df : DF) (m : List (String × String)) : DF :=
  { df with cols := df.cols.map (fun c => match m.lookup c with
      | some c2 => c2
      | none => c) }

/-- `df[c] = df[c].map(f)`: raises `KeyError` when the column is absent. -/
def mapCol (df : DF) (c : String) (f : Val → Val) : Except String DF :=
  match df.colIdx c with
  | none => .error ("KeyError: " ++ c)
  | some j => .ok { df with rows := df.rows.map (fun r => r.set j (f (r.getD j .na))) }

/-- One cell cast by `.astype("Int64")`: integers and missing values pass,
a float passes only when it is integral, anything else raises. -/
def castInt64 : Val → Except String Val
  | .int n => .ok (.int n)
  | .na => .ok .na
  | .rat q => if q.den = 1 then .ok (.int q.num) else .error "TypeError: cannot safely cast"
  | _ => .error "TypeError: cannot safely cast"

/-- `df[c] = df[c].astype("Int64")`: raises `KeyError` when the column is
absent, `TypeError` when a cell cannot be cast. -/
def astypeInt64 (df : DF) (c : String) : Except String DF :=
  match df.colIdx c with
  | none => .error ("KeyError: " ++ c)
  | some j =>
    match mapME (fun r => Except.map (fun v => r.set j v) (castInt64 (r.getD j .na))) df.rows with
    | .error e => .error e
    | .ok rows2 => .ok { df with rows := rows2 }

/-- `df[[c₁, …]]`: restrict to the listed columns, in the listed order;
raises `KeyError` when one is absent. -/
def select (df : DF) (cs : List String) : Except String DF :=
  match mapME (fun c => getEx (df.colIdx c) ("KeyError: " ++ c)) cs with
  | .error e => .error e
  | .ok idxs => .ok { cols := cs, rows := df.rows.map (fun r => idxs.map (fun i => r.getD i Val.na)) }

end DF

/-- The sort key of a row: the cells at the given column positions. -/
def rowKey (idxs : List Nat) (r : List Val) : List Val :=
  idxs.map (fun i => r.getD i Val.na)

/-- Order on rows used by `df.sort_values([...])`: lexicographic on the
extracted key cells. -/
def rowLe (idxs : List Nat) (r₁ r₂ : List Val) : Prop :=
  Val.listLe (rowKey idxs r₁) (rowKey idxs r₂)

instance (idxs : List Nat) : DecidableRel (rowLe idxs) := fun a b => by
  unfold rowLe; infer_instance

instance (idxs : List Nat) : IsTotal (List Val) (rowLe idxs) :=
  ⟨fun a b => Val.listLe_total _ _⟩

instance (idxs : List Nat) : IsTrans (List Val) (rowLe idxs) :=
  ⟨fun _ _ _ h1 h2 => Val.listLe_trans h1 h2⟩

/-- `df.sort_values([...])`: rows reordered ascending by the key columns;
raises `KeyError` when a key column is absent. -/
def DF.sort_values (df : DF) (keys : List String) : Except String DF :=
  match mapME (fun c => getEx (df.colIdx c) ("KeyError: " ++ c)) keys with
  | .error e => .error e
  | .ok idxs => .ok { df with rows := List.insertionSort (rowLe idxs) df.rows }

/-! ## `pivot_table` (index keys, one label column, one value column,
aggregating with `mean`, as `_handle_region_data` invokes it) -/

/-- The mean that pandas `pivot_table(aggfunc="mean")` computes for one cell
group; the empty group yields a missing value. -/
def meanVal (vs : List Val) : Val :=
  match vs with
  | [] => .na
  | _ => .rat ((vs.map Val.toRat).sum / (vs.length : ℚ))

/-- One cell of the pivoted table: the mean of the non-missing values whose
row carried this index key and this column label. -/
def pivotCell (pr : List (List Val × String × Val)) (k : List Val) (c : String) : Val :=
  meanVal ((pr.filter fun t => decide (t.1 = k) && decide (t.2.1 = c) && !t.2.2.isNa).map
    fun t => t.2.2)

/-- Assemble the pivoted table from the extracted records: index keys sorted
and deduplicated, observed labels sorted.  `pivot_table`'s default
`dropna=True` drops every aggregated cell that is missing before
unstacking, so an index key all of whose values are missing and a label
all of whose values are missing both disappear from the output. -/
def pivotFromRecs (index : List String) (pr : List (List Val × String × Val)) : DF :=
  let keys0 := List.insertionSort Val.listLe ((pr.map (fun t => t.1)).dedup)
  let keys := keys0.filter (fun k => pr.any fun t => decide (t.1 = k) && !t.2.2.isNa)
  let labels0 := List.insertionSort strLeP ((pr.map (fun t => t.2.1)).dedup)
  let labels := labels0.filter (fun c => pr.any fun t => decide (t.2.1 = c) && !t.2.2.isNa)
  { cols := index ++ labels,
    rows := keys.map (fun k => k ++ labels.map (pivotCell pr k)) }

/-- Extract `(index key, label, value)` records from the rows; rows whose
label cell is missing (or not a string) and rows with a missing index cell
are dropped, as the grouping underlying `pivot_table` drops `NaN` keys. -/
def pivotRecs (df : DF) (idxs : List Nat) (cIdx vIdx : Nat) : List (List Val × String × Val) :=
  df.rows.filterMap (fun r =>
    match r.getD cIdx Val.na with
    | .str s =>
      let k := idxs.map (fun i => r.getD i Val.na)
      if k.any Val.isNa then none else some (k, s, r.getD vIdx Val.na)
    | _ => none)

/-- `df.pivot_table(index=..., columns=..., values=...).reset_index()` with
the default `aggfunc="mean"`: `KeyError` on a missing column, `TypeError`
when asked to aggregate non-numeric values. -/
def DF.pivot_table (df : DF) (index : List String) (columns values : String) :
    Except String DF :=
  match mapME (fun c => getEx (df.colIdx c) ("KeyError: " ++ c)) index with
  | .error e => .error e
  | .ok idxs =>
    match getEx (df.colIdx columns) ("KeyError: " ++ columns) with
    | .error e => .error e
    | .ok cIdx =>
      match getEx (df.colIdx values) ("KeyError: " ++ values) with
      | .error e => .error e
      | .ok vIdx =>
        let pr := pivotRecs df idxs cIdx vIdx
        if pr.any (fun t => !t.2.2.isNumNa) then .error "TypeError: could not aggregate"
        else .ok (pivotFromRecs index pr)

/-! ## The dataset transforms of `gridstatus/eia.py` -/

/-- `pd.Timedelta(frequency)` for the frequency labels the module uses,
counted in minutes. -/
def Timedelta : String → Option ℤ
  | "1h" => some 60
  | _ => none

/-- `pd.to_datetime(cell, utc=True)` on one period cell, through an abstract
timestamp parser `parse` (minutes since the epoch); a cell that is not a
parseable string raises a parse error. -/
def periodVal (parse : String → Option ℤ) (j : Nat) (r : List Val) : Except String ℤ :=
  match r.getD j Val.na with
  | .str s =>
    match parse s with
    | some t => .ok t
    | none => .error "ParseError"
  | _ => .error "ParseError"

/-- `_handle_time(df, frequency)`: parse the `period` column as interval-end
timestamps (timezone-aware UTC), insert `Interval End` then `Interval Start`
(= end − duration) at the front, and drop `period`. -/
def _handle_time (parse : String → Option ℤ) (df : DF) (frequency : String) :
    Except String DF :=
  match df.colIdx "period" with
  | none => .error "KeyError: period"
  | some j =>
    match Timedelta frequency with
    | none => .error "ValueError: invalid frequency"
    | some d =>
      match mapME (periodVal parse j) df.rows with
      | .error e => .error e
      | .ok ends =>
        .ok { cols := "Interval Start" :: "Interval End" :: df.cols.eraseIdx j,
              rows := (df.rows.zip ends).map
                (fun rt => .time (rt.2 - d) :: .time rt.2 :: rt.1.eraseIdx j) }

/-- The fixed type-code enumeration of `_handle_region_data`. -/
def TYPE_MAP : List (String × String) :=
  [("D", "Load"), ("TI", "Total Interchange"), ("NG", "Net Generation"),
   ("DF", "Load Forecast")]

/-- `df["Type"].map({...})` on one cell: an unmapped code (or a non-string
cell) becomes the missing value. -/
def mapType (v : Val) : Val :=
  match v with
  | .str s =>
    match TYPE_MAP.lookup s with
    | some l => .str l
    | none => .na
  | _ => .na

/-- The columns the post-pivot fix-up loop of `_handle_region_data` walks,
in source order. -/
def REGION_VALUE_COLS : List String :=
  ["Load", "Net Generation", "Load Forecast", "Total Interchange"]

/-- `for col in [...]: df[col] = df[col].astype("Int64")`. -/
def astypeAll (cs : List String) (df : DF) : Except String DF :=
  match cs with
  | [] => .ok df
  | c :: rest =>
    match df.astypeInt64 c with
    | .error e => .error e
    | .ok df2 => astypeAll rest df2

/-- `_handle_region_data(df)`: interval bounds, renames, type-code mapping,
`Int64` cast of `MW`, pivot on `Type`, and the post-pivot `Int64` fix-up. -/
def _handle_region_data (parse : String → Option ℤ) (df : DF) : Except String DF := do
  let df ← _handle_time parse df "1h"
  let df := df.renameCols [("value", "MW"), ("respondent", "Respondent"),
    ("respondent-name", "Respondent Name"), ("type", "Type")]
  let df ← df.mapCol "Type" mapType
  let df ← df.astypeInt64 "MW"
  let df ← df.pivot_table ["Interval Start", "Interval End", "Respondent", "Respondent Name"]
    "Type" "MW"
  astypeAll REGION_VALUE_COLS df

/-- The canonical column list of the interchange transform. -/
def INTERCHANGE_COLS : List String :=
  ["Interval Start", "Interval End", "From BA", "From BA Name", "To BA", "To BA Name", "MW"]

/-- `_handle_rto_interchange(df)` (`electricity/rto/interchange-data`):
interval bounds, renames, restriction to the canonical columns, and an
ascending sort by `(Interval Start, From BA)`. -/
def _handle_rto_interchange (parse : String → Option ℤ) (df : DF) : Except String DF := do
  let df ← _handle_time parse df "1h"
  let df := df.renameCols [("value", "MW"), ("fromba", "From BA"), ("toba", "To BA"),
    ("fromba-name", "From BA Name"), ("toba-name", "To BA Name")]
  let df ← df.select INTERCHANGE_COLS
  df.sort_values ["Interval Start", "From BA"]

/-- The module-level transform registry. -/
def DATASET_HANDLERS (parse : String → Option ℤ) : List (String × (DF → Except String DF)) :=
  [("electricity/rto/interchange-data", _handle_rto_interchange parse),
   ("electricity/rto/region-data", _handle_region_data parse)]

/-- `if dataset in DATASET_HANDLERS: df = DATASET_HANDLERS[dataset](df)`:
a registered transform is applied, anything else passes through unchanged. -/
def applyHandler (parse : String → Option ℤ) (dataset : String) (df : DF) :
    Except String DF :=
  match (DATASET_HANDLERS parse).lookup dataset with
  | some h => h df
  | none => .ok df

/-! ## The paged fetcher: `EIA.get_dataset`

The network, JSON decoding and `pd.DataFrame(response["data"])` of
`EIA._fetch_page` are abstracted into a `Fetcher` oracle mapping the url and
headers of an HTTP GET to the decoded page table and the reported total (or
a transport failure).  `get_dataset` is otherwise translated statement by
statement; besides the returned table it exposes the requests it dispatched
(in dispatch order) and the progress log, so that fetch counts, request
parameters and verbose-mode output are stateable.  The nondeterministic
order in which the worker pool completes page fetches enters only the
progress report and is passed in as `completionOrder`. -/

/-- The `X-Params` request parameter bag built by `get_dataset`. -/
structure XParams where
  start : String
  endStr : Option String
  frequency : String
  data : List String
  facets : List (String × String)
  offset : Nat
  length : Nat
  deriving DecidableEq, Repr

/-- The headers of one page request: the API key and the serialized
parameter bag. -/
structure Headers where
  apiKey : String
  xParams : XParams
  deriving DecidableEq, Repr

/-- The network oracle standing for `EIA._fetch_page`: url and headers to
decoded table plus reported total, or a raised transport error. -/
def Fetcher := String → Headers → Except String (DF × Nat)

def BASE_URL : String := "https://api.eia.gov/v2/"

/-- `self._fetch_page(url, headers)`. -/
def _fetch_page (fetch : Fetcher) (url : String) (headers : Headers) :
    Except String (DF × Nat) :=
  fetch url headers

/-- The per-page parameter bag: the base bag with only `offset` replaced by
`page * page_size` (the body of `fetch_page_wrapper` before its fetch). -/
def pageXParams (params : XParams) (page pageSize : Nat) : XParams :=
  { params with offset := page * pageSize }

/-- `fetch_page_wrapper(url, headers, page, page_size)`: rebuild the
parameter bag with the page's offset inside this worker's own copy of the
headers, fetch, and keep only the table. -/
def fetch_page_wrapper (fetch : Fetcher) (url : String) (headers : Headers)
    (page pageSize : Nat) : Except String DF :=
  let headers2 := { headers with xParams := pageXParams headers.xParams page pageSize }
  Except.map Prod.fst (_fetch_page fetch url headers2)

/-- The parameter bag `get_dataset` builds before page 0. -/
def baseXParams (startStr : String) (endStr : Option String) : XParams :=
  { start := startStr, endStr := endStr, frequency := "hourly", data := ["value"],
    facets := [], offset := 0, length := 5000 }

/-- The fixed page size of `get_dataset`. -/
def page_size : Nat := 5000

/-- `total_pages = (total_records + page_size - 1) // page_size`. -/
def totalPagesOf (total_records : Nat) : Nat :=
  (total_records + page_size - 1) / page_size

/-- `[future.result() for future in futures]`: results gathered in
submission order, the first raised failure propagating. -/
def collectResults : List (Except String DF) → Except String (List DF) :=
  mapME id

/-- `pd.concat([raw_df, *page_dfs], ignore_index=True)` for page tables
sharing the first page's columns. -/
def concatPages (df : DF) (dfs : List DF) : DF :=
  { cols := df.cols, rows := df.rows ++ (dfs.map DF.rows).flatten }

/-- What one call of `get_dataset` did: the page requests it dispatched (in
dispatch order), the printed progress log, and the returned table or the
raised failure. -/
structure Run where
  requests : List XParams
  log : List String
  result : Except String DF
  deriving Repr

/-- `EIA.get_dataset(dataset, start, end, n_workers, verbose)`.  `start_str`
and `end_str` stand for the strings `_handle_date`/`strftime` derived from
the caller's dates; `parse` is the timestamp parser the transforms use;
`completionOrder` lists the pages in the order the pool completed them
(feeding only the progress report). -/
def get_dataset (parse : String → Option ℤ) (fetch : Fetcher) (api_key : String)
    (dataset : String) (start_str : String) (end_str : Option String)
    (n_workers : Nat) (verbose : Bool) (completionOrder : List Nat) : Run :=
  let url := BASE_URL ++ dataset ++ "/data/"
  let params := baseXParams start_str end_str
  let headers : Headers := { apiKey := api_key, xParams := params }
  let log0 := if verbose then
      ["Fetching data from " ++ url,
       "Concurrent workers: " ++ toString n_workers] else []
  match _fetch_page fetch url headers with
  | .error e => { requests := [params], log := log0, result := .error e }
  | .ok (raw_df, total_records) =>
    let total_pages := totalPagesOf total_records
    let log1 := log0 ++ (if verbose then
        ["Total records: " ++ toString total_records,
         "Total pages: " ++ toString total_pages,
         "Fetching data:"] else [])
    if total_pages > 1 then
      let pages := List.range' 1 (total_pages - 1)
      let futures := pages.map (fun page => fetch_page_wrapper fetch url headers page page_size)
      let log2 := log1 ++ (if verbose then
          "progress 1" :: (completionOrder.take pages.length).map
            (fun p => "page " ++ toString p ++ " done") else [])
      let reqs := params :: pages.map (fun page => pageXParams params page page_size)
      match collectResults futures with
      | .error e => { requests := reqs, log := log2, result := .error e }
      | .ok page_dfs =>
          { requests := reqs, log := log2,
            result := applyHandler parse dataset (concatPages raw_df page_dfs) }
    else
      { requests := [params], log := log1, result := applyHandler parse dataset raw_df }

/-! ## Characterization of one `get_dataset` run -/

/-- The url `get_dataset` builds for a dataset path. -/
def urlOf (dataset : String) : String := BASE_URL ++ dataset ++ "/data/"

/-- The headers of the page-0 request. -/
def baseHeaders (api_key start_str : String) (end_str : Option String) : Headers :=
  { apiKey := api_key, xParams := baseXParams start_str end_str }

/-- The headers a worker sends for a given page. -/
def pageHeaders (api_key start_str : String) (end_str : Option String) (page : Nat) : Headers :=
  { apiKey := api_key, xParams := pageXParams (baseXParams start_str end_str) page page_size }

/-- The futures submitted to the pool, in submission (= page) order. -/
def pageFutures (fetch : Fetcher) (url : String) (hdr : Headers) (tp : Nat) :
    List (Except String DF) :=
  (List.range' 1 (tp - 1)).map (fun page => fetch_page_wrapper fetch url hdr page page_size)

lemma get_dataset_result_eq (parse : String → Option ℤ) (fetch : Fetcher)
    (k ds s : String) (e : Option String) (w : Nat) (v : Bool) (σ : List Nat) :
    (get_dataset parse fetch k ds s e w v σ).result =
      match fetch (urlOf ds) (baseHeaders k s e) with
      | .error er => .error er
      | .ok (raw, T) =>
        match collectResults (pageFutures fetch (urlOf ds) (baseHeaders k s e) (totalPagesOf T)) with
        | .error er => .error er
        | .ok dfs => applyHandler parse ds (concatPages raw dfs) := by
  unfold get_dataset
  dsimp only
  rw [show _fetch_page fetch (BASE_URL ++ ds ++ "/data/")
        { apiKey := k, xParams := baseXParams s e } =
      fetch (urlOf ds) (baseHeaders k s e) from rfl]
  cases hf : fetch (urlOf ds) (baseHeaders k s e) with
  | error er => rfl
  | ok p =>
    obtain ⟨raw, T⟩ := p
    rw [show (fun page => fetch_page_wrapper fetch (BASE_URL ++ ds ++ "/data/")
          { apiKey := k, xParams := baseXParams s e } page page_size) =
        (fun page => fetch_page_wrapper fetch (urlOf ds) (baseHeaders k s e) page page_size)
        from rfl]
    by_cases htp : 1 < totalPagesOf T
    · simp only [htp, reduceIte, pageFutures, gt_iff_lt, if_true]
      cases hc : collectResults ((List.range' 1 (totalPagesOf T - 1)).map
          (fun page => fetch_page_wrapper fetch (urlOf ds) (baseHeaders k s e) page page_size)) with
      | error er => simp [hc]
      | ok dfs => simp [hc]
    · have h0 : totalPagesOf T - 1 = 0 := by omega
      simp only [gt_iff_lt, htp, reduceIte, pageFutures, h0, List.range'_zero, List.map_nil,
        if_false]
      show applyHandler parse ds raw = applyHandler parse ds (concatPages raw [])
      simp only [concatPages, List.map_nil, List.flatten_nil, List.append_nil]

lemma get_dataset_requests_eq (parse : String → Option ℤ) (fetch : Fetcher)
    (k ds s : String) (e : Option String) (w : Nat) (v : Bool) (σ : List Nat) :
    (get_dataset parse fetch k ds s e w v σ).requests =
      match fetch (urlOf ds) (baseHeaders k s e) with
      | .error _ => [baseXParams s e]
      | .ok (_, T) =>
        if 1 < totalPagesOf T then
          baseXParams s e :: (List.range' 1 (totalPagesOf T - 1)).map
            (fun page => pageXParams (baseXParams s e) page page_size)
        else [baseXParams s e] := by
  unfold get_dataset
  dsimp only
  rw [show _fetch_page fetch (BASE_URL ++ ds ++ "/data/")
        { apiKey := k, xParams := baseXParams s e } =
      fetch (urlOf ds) (baseHeaders k s e) from rfl]
  cases hf : fetch (urlOf ds) (baseHeaders k s e) with
  | error er => rfl
  | ok p =>
    obtain ⟨raw, T⟩ := p
    by_cases htp : 1 < totalPagesOf T
    · simp only [htp, reduceIte, gt_iff_lt, if_true]
      cases hc : collectResults ((List.range' 1 (totalPagesOf T - 1)).map
          (fun page => fetch_page_wrapper fetch (BASE_URL ++ ds ++ "/data/")
            { apiKey := k, xParams := baseXParams s e } page page_size)) with
      | error er => simp [hc]
      | ok dfs => simp [hc]
    · simp only [gt_iff_lt, htp, reduceIte, if_false]

instance : DecidableEq (Except String (DF × Nat)) := fun a b =>
  match a, b with
  | .error x, .error y => decidable_of_iff (x = y) (by simp)
  | .error _, .ok _ => isFalse (by simp)
  | .ok _, .error _ => isFalse (by simp)
  | .ok x, .ok y => decidable_of_iff (x = y) (by simp)

lemma fetch_page_wrapper_eq (fetch : Fetcher) (k ds s : String) (e : Option String) (q : Nat) :
    fetch_page_wrapper fetch (urlOf ds) (baseHeaders k s e) q page_size =
      Except.map Prod.fst (fetch (urlOf ds) (pageHeaders k s e q)) := rfl

lemma collectResults_ok (f : Nat → Except String DF) (g : Nat → DF) (l : List Nat)
    (h : ∀ p ∈ l, f p = .ok (g p)) : collectResults (l.map f) = .ok (l.map g) := by
  induction l with
  | nil => rfl
  | cons a l ih =>
    have ha := h a (by simp)
    have hl := ih (fun p hp => h p (by simp [hp]))
    simp only [List.map_cons, collectResults, mapME, ha, id_eq] at *
    simp [hl]

lemma collectResults_error_at (f : Nat → Except String DF) (l₁ l₂ : List Nat)
    (p : Nat) (er : String) (hok : ∀ q ∈ l₁, ∃ d, f q = .ok d) (hf : f p = .error er) :
    collectResults ((l₁ ++ p :: l₂).map f) = .error er := by
  have h₁ : ∀ y ∈ l₁.map f, ∃ b, id y = .ok b := by
    intro y hy
    obtain ⟨q, hq, rfl⟩ := List.mem_map.1 hy
    obtain ⟨d, hd⟩ := hok q hq
    exact ⟨d, by simp [hd]⟩
  have := mapME_error_of id (l₁.map f) (l₂.map f) (f p) er h₁ (by simp [hf])
  simpa [collectResults] using this

lemma totalPages_ceil (T : Nat) : totalPagesOf T = ⌈(T : ℚ) / 5000⌉₊ := by
  rcases Nat.eq_zero_or_pos T with h0 | hpos
  · subst h0
    norm_num [totalPagesOf, page_size]
  · have htp : 1 ≤ totalPagesOf T := by unfold totalPagesOf page_size; omega
    have h1 : T ≤ totalPagesOf T * 5000 := by unfold totalPagesOf page_size at *; omega
    have h2 : (totalPagesOf T - 1) * 5000 < T := by unfold totalPagesOf page_size at *; omega
    rw [eq_comm, Nat.ceil_eq_iff (by omega)]
    constructor
    · rw [lt_div_iff₀ (by norm_num : (0:ℚ) < 5000)]
      exact_mod_cast h2
    · rw [div_le_iff₀ (by norm_num : (0:ℚ) < 5000)]
      exact_mod_cast h1

/-- C9: the table `get_dataset` returns (and the requests it dispatches) are
identical whether `verbose` is true or false, for any completion order of
the page fetches: progress reporting reads completion events but never
feeds into result assembly, and the progress log is a total computation of
the run, so it cannot itself fail the call. -/
theorem c9_verbose_noninterference (parse : String → Option ℤ) (fetch : Fetcher)
    (k ds s : String) (e : Option String) (w : Nat) (σ σ2 : List Nat) :
    (get_dataset parse fetch k ds s e w true σ).result =
      (get_dataset parse fetch k ds s e w false σ2).result ∧
    (get_dataset parse fetch k ds s e w true σ).requests =
      (get_dataset parse fetch k ds s e w false σ2).requests := by
  constructor
  · rw [get_dataset_result_eq, get_dataset_result_eq]
  · rw [get_dataset_requests_eq, get_dataset_requests_eq]

/-- C2: whatever the worker-pool size (≥ 1) and whatever order the page
fetches complete in, the table `get_dataset` returns is the transform of
page 0's table concatenated with the tables of pages 1 .. total_pages−1 in
ascending page-index order, and it equals the purely sequential run
(`n_workers = 1`, ascending completions). -/
theorem c2_ascending_order_schedule_independence (parse : String → Option ℤ)
    (fetch : Fetcher) (k ds s : String) (e : Option String) (w : Nat) (v : Bool)
    (σ : List Nat) (v2 : Bool) (σ2 : List Nat) (hw : 1 ≤ w) (raw : DF) (T : Nat)
    (dfs : Nat → DF) (tots : Nat → Nat)
    (hf : fetch (urlOf ds) (baseHeaders k s e) = .ok (raw, T))
    (hp : ∀ p ∈ List.range' 1 (totalPagesOf T - 1),
      fetch (urlOf ds) (pageHeaders k s e p) = .ok (dfs p, tots p)) :
    (get_dataset parse fetch k ds s e w v σ).result =
      applyHandler parse ds
        (concatPages raw ((List.range' 1 (totalPagesOf T - 1)).map dfs)) ∧
    (get_dataset parse fetch k ds s e w v σ).result =
      (get_dataset parse fetch k ds s e 1 v2 σ2).result := by
  have hcoll : collectResults
      (pageFutures fetch (urlOf ds) (baseHeaders k s e) (totalPagesOf T)) =
      .ok ((List.range' 1 (totalPagesOf T - 1)).map dfs) := by
    unfold pageFutures
    refine collectResults_ok _ dfs _ (fun p hmem => ?_)
    rw [fetch_page_wrapper_eq, hp p hmem]
    rfl
  constructor
  · rw [get_dataset_result_eq]
    simp [hf, hcoll]
  · rw [get_dataset_result_eq, get_dataset_result_eq]

/-- C5: for a dataset identifier with no entry in the transform registry,
`get_dataset` returns the concatenated raw table itself, column for column
and row for row; the missing registry entry is not an error. -/
theorem c5_unregistered_identity (parse : String → Option ℤ) (fetch : Fetcher)
    (k ds s : String) (e : Option String) (w : Nat) (v : Bool) (σ : List Nat)
    (raw : DF) (T : Nat) (dfs : Nat → DF) (tots : Nat → Nat)
    (hnone : (DATASET_HANDLERS parse).lookup ds = none)
    (hf : fetch (urlOf ds) (baseHeaders k s e) = .ok (raw, T))
    (hp : ∀ p ∈ List.range' 1 (totalPagesOf T - 1),
      fetch (urlOf ds) (pageHeaders k s e p) = .ok (dfs p, tots p)) :
    (get_dataset parse fetch k ds s e w v σ).result =
      .ok (concatPages raw ((List.range' 1 (totalPagesOf T - 1)).map dfs)) := by
  have hcoll : collectResults
      (pageFutures fetch (urlOf ds) (baseHeaders k s e) (totalPagesOf T)) =
      .ok ((List.range' 1 (totalPagesOf T - 1)).map dfs) := by
    unfold pageFutures
    refine collectResults_ok _ dfs _ (fun p hmem => ?_)
    rw [fetch_page_wrapper_eq, hp p hmem]
    rfl
  rw [get_dataset_result_eq]
  simp [hf, hcoll, applyHandler, hnone]

/-- C8: every page request of a `get_dataset` run carries its own parameter
bag derived from the base one: request i has `offset = i * page_size` (a
non-negative multiple of the page size), all other fields agree with the
base bag, and the request of page 0 is exactly the base bag. -/
theorem c8_offset_invariant (parse : String → Option ℤ) (fetch : Fetcher)
    (k ds s : String) (e : Option String) (w : Nat) (v : Bool) (σ : List Nat) :
    (get_dataset parse fetch k ds s e w v σ).requests.head? = some (baseXParams s e) ∧
    ∀ i, i < (get_dataset parse fetch k ds s e w v σ).requests.length →
      ((get_dataset parse fetch k ds s e w v σ).requests.getD i (baseXParams s e)).offset =
        i * page_size ∧
      { (get_dataset parse fetch k ds s e w v σ).requests.getD i (baseXParams s e) with
          offset := 0 } = baseXParams s e := by
  rw [get_dataset_requests_eq]
  cases hf : fetch (urlOf ds) (baseHeaders k s e) with
  | error er =>
    refine ⟨rfl, fun i hi => ?_⟩
    have h0 : i = 0 := by simpa using hi
    subst h0
    exact ⟨rfl, rfl⟩
  | ok p =>
    obtain ⟨raw, T⟩ := p
    dsimp only
    by_cases htp : 1 < totalPagesOf T
    · rw [if_pos htp]
      refine ⟨rfl, fun i hi => ?_⟩
      match i with
      | 0 => exact ⟨rfl, rfl⟩
      | j + 1 =>
        simp only [List.length_cons, List.length_map, List.length_range'] at hi
        have hj : j < totalPagesOf T - 1 := by omega
        have hget : (baseXParams s e :: (List.range' 1 (totalPagesOf T - 1)).map
            (fun page => pageXParams (baseXParams s e) page page_size)).getD (j + 1)
              (baseXParams s e) =
            pageXParams (baseXParams s e) (1 + 1 * j) page_size := by
          simp [List.getD, List.getElem?_map, List.getElem?_range', hj]
        rw [hget]
        constructor
        · show (1 + 1 * j) * page_size = (j + 1) * page_size
          congr 1
          omega
        · rfl
    · rw [if_neg htp]
      refine ⟨rfl, fun i hi => ?_⟩
      have h0 : i = 0 := by simpa using hi
      subst h0
      exact ⟨rfl, rfl⟩

/-- C3: if a non-first page fetch fails (and the pages submitted before it
succeed), `get_dataset` propagates exactly that failure and surfaces no
table; every page is requested exactly once — the offsets dispatched are
`0, page_size, …` with no repetition, so no retry happens. -/
theorem c3_failure_aborts (parse : String → Option ℤ) (fetch : Fetcher)
    (k ds s : String) (e : Option String) (w : Nat) (v : Bool) (σ : List Nat)
    (raw : DF) (T p : Nat) (er : String)
    (hf : fetch (urlOf ds) (baseHeaders k s e) = .ok (raw, T))
    (hp : p ∈ List.range' 1 (totalPagesOf T - 1))
    (hfail : fetch (urlOf ds) (pageHeaders k s e p) = .error er)
    (hbefore : ∀ q ∈ List.range' 1 (totalPagesOf T - 1), q < p →
      ∃ d, fetch (urlOf ds) (pageHeaders k s e q) = .ok d) :
    (get_dataset parse fetch k ds s e w v σ).result = .error er ∧
    (get_dataset parse fetch k ds s e w v σ).requests.map XParams.offset =
      (List.range' 0 (totalPagesOf T)).map (fun i => i * page_size) ∧
    ((get_dataset parse fetch k ds s e w v σ).requests.map XParams.offset).Nodup := by
  have hpb : 1 ≤ p ∧ p < 1 + (totalPagesOf T - 1) := by simpa using hp
  have htp : 1 < totalPagesOf T := by omega
  obtain ⟨m, hm⟩ : ∃ m, totalPagesOf T - 1 - (p - 1) = m + 1 :=
    ⟨totalPagesOf T - 1 - (p - 1) - 1, by omega⟩
  have hsplit : List.range' 1 (totalPagesOf T - 1) =
      List.range' 1 (p - 1) ++ p :: List.range' (p + 1) m := by
    have happ := List.range'_append_1 1 (p - 1) (totalPagesOf T - 1 - (p - 1))
    rw [show 1 + (p - 1) = p by omega] at happ
    rw [show totalPagesOf T - 1 - (p - 1) + (p - 1) = totalPagesOf T - 1 by omega] at happ
    rw [← happ, hm, List.range'_succ]
  have hcoll : collectResults
      (pageFutures fetch (urlOf ds) (baseHeaders k s e) (totalPagesOf T)) = .error er := by
    unfold pageFutures
    rw [hsplit]
    refine collectResults_error_at _ _ _ _ _ (fun q hq => ?_) ?_
    · have hq1 : q ∈ List.range' 1 (totalPagesOf T - 1) := by
        simp only [List.mem_range'_1] at hq ⊢
        omega
      have hq2 : q < p := by
        simp only [List.mem_range'_1] at hq
        omega
      obtain ⟨d, hd⟩ := hbefore q hq1 hq2
      exact ⟨d.1, by rw [fetch_page_wrapper_eq, hd]; rfl⟩
    · rw [fetch_page_wrapper_eq, hfail]; rfl
  obtain ⟨n, hn⟩ : ∃ n, totalPagesOf T - 1 = n + 1 := ⟨totalPagesOf T - 2, by omega⟩
  have hn2 : totalPagesOf T = n + 2 := by omega
  have hreq : (get_dataset parse fetch k ds s e w v σ).requests.map XParams.offset =
      (List.range' 0 (totalPagesOf T)).map (fun i => i * page_size) := by
    rw [get_dataset_requests_eq]
    simp only [hf]
    rw [if_pos htp, hn, hn2]
    conv_rhs => rw [List.range'_succ]
    simp only [List.map_cons, List.map_map]
    refine congrArg₂ List.cons rfl ?_
    exact List.map_congr_left (fun q hq => rfl)
  refine ⟨?_, hreq, ?_⟩
  · rw [get_dataset_result_eq]
    simp [hf, hcoll]
  · rw [hreq]
    refine List.Nodup.map (fun a b hab => ?_) (List.nodup_range' _ _)
    exact Nat.eq_of_mul_eq_mul_right (by norm_num [page_size]) hab

/-- C1: `get_dataset` computes `total_pages = ceil(total_records /
page_size)`; when the reported total fits one page only one fetch happens;
for 12000 records it dispatches exactly the offsets 0, 5000, 10000 and, when
those pages answer, returns the transform of their tables concatenated in
ascending page order — 12000 rows when the pages carry 5000, 5000 and 2000
rows. -/
theorem c1_pagination (parse : String → Option ℤ) (fetch : Fetcher)
    (k ds s : String) (e : Option String) (w : Nat) (v : Bool) (σ : List Nat)
    (raw : DF) (T : Nat)
    (hf : fetch (urlOf ds) (baseHeaders k s e) = .ok (raw, T)) :
    totalPagesOf T = ⌈(T : ℚ) / (page_size : ℚ)⌉₊ ∧
    (T ≤ page_size → (get_dataset parse fetch k ds s e w v σ).requests.length = 1) ∧
    (T = 12000 → (get_dataset parse fetch k ds s e w v σ).requests.map XParams.offset =
      [0, 5000, 10000]) ∧
    (T = 12000 → ∀ df1 df2 : DF, ∀ t1 t2 : Nat,
      fetch (urlOf ds) (pageHeaders k s e 1) = .ok (df1, t1) →
      fetch (urlOf ds) (pageHeaders k s e 2) = .ok (df2, t2) →
      (get_dataset parse fetch k ds s e w v σ).result =
        applyHandler parse ds (concatPages raw [df1, df2]) ∧
      (raw.rows.length = 5000 → df1.rows.length = 5000 → df2.rows.length = 2000 →
        (concatPages raw [df1, df2]).rows.length = 12000)) := by
  refine ⟨?_, ?_, ?_, ?_⟩
  · rw [totalPages_ceil]
    norm_num [page_size]
  · intro hT
    have h1 : ¬ 1 < totalPagesOf T := by
      unfold totalPagesOf page_size at *
      omega
    rw [get_dataset_requests_eq]
    simp only [hf]
    rw [if_neg h1]
    rfl
  · intro hT
    subst hT
    have htp : totalPagesOf 12000 = 3 := by norm_num [totalPagesOf, page_size]
    rw [get_dataset_requests_eq]
    simp only [hf, htp]
    rfl
  · intro hT df1 df2 t1 t2 hf1 hf2
    subst hT
    have htp : totalPagesOf 12000 = 3 := by norm_num [totalPagesOf, page_size]
    have hcoll : collectResults
        (pageFutures fetch (urlOf ds) (baseHeaders k s e) (totalPagesOf 12000)) =
        .ok [df1, df2] := by
      rw [htp]
      show collectResults ([1, 2].map
        (fun page => fetch_page_wrapper fetch (urlOf ds) (baseHeaders k s e) page page_size)) =
        .ok [df1, df2]
      rw [show ([1, 2].map
          (fun page => fetch_page_wrapper fetch (urlOf ds) (baseHeaders k s e) page page_size)) =
        [fetch_page_wrapper fetch (urlOf ds) (baseHeaders k s e) 1 page_size,
         fetch_page_wrapper fetch (urlOf ds) (baseHeaders k s e) 2 page_size] from rfl]
      rw [fetch_page_wrapper_eq, fetch_page_wrapper_eq, hf1, hf2]
      rfl
    constructor
    · rw [get_dataset_result_eq]
      simp [hf, hcoll]
    · intro h0 h1 h2
      simp [concatPages, h0, h1, h2]

/-! ## Concrete fixtures for the witnesses -/

/-- A tiny page table: one `id` column, `n` rows numbered from `off`. -/
def idRows (off n : Nat) : DF :=
  ⟨["id"], (List.range n).map (fun i => [Val.int (off + i)])⟩

/-- A trivial timestamp parser for runs that never reach a transform. -/
def parseW : String → Option ℤ := fun _ => none

/-- An unregistered dataset path. -/
def dsW : String := "electricity/retail-sales"

def startW : String := "2024-01-01T00"

/-- Oracle answering 12000 total records over three pages. -/
def fetchW : Fetcher := fun _ h =>
  if h.xParams.offset = 0 then .ok (idRows 0 3, 12000)
  else if h.xParams.offset = 5000 then .ok (idRows 5000 3, 12000)
  else if h.xParams.offset = 10000 then .ok (idRows 10000 2, 12000)
  else .error "bad offset"

/-- Oracle answering 3000 total records: a single page. -/
def fetchW1 : Fetcher := fun _ _ => .ok (idRows 0 3, 3000)

/-- Oracle whose page at offset 10000 fails. -/
def fetchW2 : Fetcher := fun _ h =>
  if h.xParams.offset = 0 then .ok (idRows 0 3, 12000)
  else if h.xParams.offset = 5000 then .ok (idRows 5000 3, 12000)
  else .error "boom"

/-- The page tables `fetchW` serves. -/
def dfsW : Nat → DF := fun p => idRows (p * 5000) (if p = 2 then 2 else 3)

theorem c1_pagination_witness :
    fetchW (urlOf dsW) (baseHeaders "key" startW none) = .ok (idRows 0 3, 12000) ∧
    fetchW1 (urlOf dsW) (baseHeaders "key" startW none) = .ok (idRows 0 3, 3000) ∧
    totalPagesOf 12000 = ⌈(12000 : ℚ) / (page_size : ℚ)⌉₊ ∧
    (get_dataset parseW fetchW1 "key" dsW startW none 4 true [2, 1]).requests.length = 1 ∧
    (get_dataset parseW fetchW "key" dsW startW none 4 true [2, 1]).requests.map
      XParams.offset = [0, 5000, 10000] := by
  have h12 := c1_pagination parseW fetchW "key" dsW startW none 4 true [2, 1]
    (idRows 0 3) 12000 rfl
  have h3 := c1_pagination parseW fetchW1 "key" dsW startW none 4 true [2, 1]
    (idRows 0 3) 3000 rfl
  exact ⟨rfl, rfl, h12.1, h3.2.1 (by norm_num [page_size]), h12.2.2.1 rfl⟩

theorem c2_ascending_order_schedule_independence_witness :
    1 ≤ 4 ∧
    fetchW (urlOf dsW) (baseHeaders "key" startW none) = .ok (idRows 0 3, 12000) ∧
    (∀ p ∈ List.range' 1 (totalPagesOf 12000 - 1),
      fetchW (urlOf dsW) (pageHeaders "key" startW none p) = .ok (dfsW p, 12000)) ∧
    (get_dataset parseW fetchW "key" dsW startW none 4 true [2, 1]).result =
      applyHandler parseW dsW
        (concatPages (idRows 0 3) ((List.range' 1 (totalPagesOf 12000 - 1)).map dfsW)) ∧
    (get_dataset parseW fetchW "key" dsW startW none 4 true [2, 1]).result =
      (get_dataset parseW fetchW "key" dsW startW none 1 false []).result := by
  have h := c2_ascending_order_schedule_independence parseW fetchW "key" dsW startW none
    4 true [2, 1] false [] (by decide) (idRows 0 3) 12000 dfsW (fun _ => 12000)
    rfl (by decide)
  exact ⟨by decide, rfl, by decide, h.1, h.2⟩

theorem c3_failure_aborts_witness :
    fetchW2 (urlOf dsW) (baseHeaders "key" startW none) = .ok (idRows 0 3, 12000) ∧
    2 ∈ List.range' 1 (totalPagesOf 12000 - 1) ∧
    fetchW2 (urlOf dsW) (pageHeaders "key" startW none 2) = .error "boom" ∧
    (get_dataset parseW fetchW2 "key" dsW startW none 4 true [2, 1]).result =
      .error "boom" ∧
    ((get_dataset parseW fetchW2 "key" dsW startW none 4 true [2, 1]).requests.map
      XParams.offset).Nodup := by
  have h := c3_failure_aborts parseW fetchW2 "key" dsW startW none 4 true [2, 1]
    (idRows 0 3) 12000 2 "boom" rfl (by decide) rfl
    (fun q hq hlt => by
      have hq1 : q = 1 := by
        simp only [List.mem_range'_1] at hq
        omega
      subst hq1
      exact ⟨(idRows 5000 3, 12000), rfl⟩)
  exact ⟨rfl, by decide, rfl, h.1, h.2.2⟩

theorem c5_unregistered_identity_witness :
    (DATASET_HANDLERS parseW).lookup dsW = none ∧
    fetchW (urlOf dsW) (baseHeaders "key" startW none) = .ok (idRows 0 3, 12000) ∧
    (get_dataset parseW fetchW "key" dsW startW none 4 true [2, 1]).result =
      .ok (concatPages (idRows 0 3) ((List.range' 1 (totalPagesOf 12000 - 1)).map dfsW)) := by
  have h := c5_unregistered_identity parseW fetchW "key" dsW startW none 4 true [2, 1]
    (idRows 0 3) 12000 dfsW (fun _ => 12000) rfl rfl (by decide)
  exact ⟨rfl, rfl, h⟩

theorem c8_offset_invariant_witness :
    (get_dataset parseW fetchW "key" dsW startW none 4 true [2, 1]).requests.head? =
      some (baseXParams startW none) ∧
    2 < (get_dataset parseW fetchW "key" dsW startW none 4 true [2, 1]).requests.length ∧
    ((get_dataset parseW fetchW "key" dsW startW none 4 true [2, 1]).requests.getD 2
      (baseXParams startW none)).offset = 2 * page_size ∧
    { (get_dataset parseW fetchW "key" dsW startW none 4 true [2, 1]).requests.getD 2
        (baseXParams startW none) with offset := 0 } = baseXParams startW none := by
  have h := c8_offset_invariant parseW fetchW "key" dsW startW none 4 true [2, 1]
  have h2 := h.2 2 (by decide)
  exact ⟨h.1, by decide, h2.1, h2.2⟩

/-! ## The interchange transform (C6) and the time normalizer (C7) -/

lemma select_cols {df : DF} {cs : List String} {out : DF}
    (h : DF.select df cs = .ok out) : out.cols = cs := by
  unfold DF.select at h
  cases hm : mapME (fun c => getEx (df.colIdx c) ("KeyError: " ++ c)) cs with
  | error e =>
    simp only [hm] at h
    simp at h
  | ok idxs =>
    simp only [hm, Except.ok.injEq] at h
    rw [← h]

lemma sort_values_interchange (rows : List (List Val)) :
    DF.sort_values ⟨INTERCHANGE_COLS, rows⟩ ["Interval Start", "From BA"] =
      .ok ⟨INTERCHANGE_COLS, List.insertionSort (rowLe [0, 2]) rows⟩ := rfl

/-- C6: whenever the interchange transform succeeds, its output is
restricted to the documented canonical columns and its rows are sorted
ascending by the lexicographic key (`Interval Start`, `From BA`) — the cells
at positions 0 and 2 of each row. -/
theorem c6_interchange_sorted (parse : String → Option ℤ) (df out : DF)
    (h : _handle_rto_interchange parse df = .ok out) :
    out.cols = INTERCHANGE_COLS ∧ out.rows.Pairwise (rowLe [0, 2]) := by
  unfold _handle_rto_interchange at h
  cases h1 : _handle_time parse df "1h" with
  | error e1 =>
    rw [h1] at h
    simp [Bind.bind, Except.bind] at h
  | ok df1 =>
    rw [h1] at h
    simp only [Bind.bind, Except.bind] at h
    cases h2 : DF.select
        (df1.renameCols [("value", "MW"), ("fromba", "From BA"), ("toba", "To BA"),
          ("fromba-name", "From BA Name"), ("toba-name", "To BA Name")])
        INTERCHANGE_COLS with
    | error e2 =>
      rw [h2] at h
      simp at h
    | ok df2 =>
      rw [h2] at h
      simp only [] at h
      have hc := select_cols h2
      obtain ⟨c2, r2⟩ := df2
      simp only at hc
      subst hc
      rw [sort_values_interchange] at h
      simp only [Except.ok.injEq] at h
      subst h
      exact ⟨rfl, List.sorted_insertionSort (rowLe [0, 2]) r2⟩

lemma mapME_ok_length {f : α → Except String β} {l : List α} {bs : List β}
    (h : mapME f l = .ok bs) : bs.length = l.length := by
  induction l generalizing bs with
  | nil =>
    simp only [mapME, Except.ok.injEq] at h
    simp [← h]
  | cons a t ih =>
    simp only [mapME] at h
    cases hfa : f a <;> rw [hfa] at h
    · simp at h
    · cases hmt : mapME f t <;> rw [hmt] at h
      · simp at h
      · simp only [Except.ok.injEq] at h
        subst h
        simp [ih hmt]

lemma mapME_ok_get {f : α → Except String β} {l : List α} {bs : List β}
    (h : mapME f l = .ok bs) :
    ∀ i (h1 : i < l.length) (h2 : i < bs.length),
      f (l.get ⟨i, h1⟩) = .ok (bs.get ⟨i, h2⟩) := by
  induction l generalizing bs with
  | nil => intro i h1 h2; simp at h1
  | cons a t ih =>
    simp only [mapME] at h
    cases hfa : f a <;> rw [hfa] at h
    · simp at h
    · cases hmt : mapME f t <;> rw [hmt] at h
      · simp at h
      · simp only [Except.ok.injEq] at h
        subst h
        intro i h1 h2
        match i with
        | 0 => simpa using hfa
        | n + 1 =>
          simp only [List.get_eq_getElem, List.getElem_cons_succ]
          have := ih hmt n (by simpa using h1) (by simpa using h2)
          simpa using this

/-- C7: for a table whose `period` column sits at position `j`, a known
frequency duration `d`, and period cells that all parse (to the interval-end
timestamps `es`), the time normalizer returns the table with `Interval
Start` and `Interval End` as the first two columns — row i carrying the
timezone-aware timestamps `es i − d` and `es i` — and the `period` column
removed. -/
theorem c7_time_normalizer (parse : String → Option ℤ) (df : DF) (freq : String)
    (d : ℤ) (j : Nat) (es : List ℤ)
    (hj : df.colIdx "period" = some j)
    (hd : Timedelta freq = some d)
    (hes : mapME (periodVal parse j) df.rows = .ok es) :
    _handle_time parse df freq =
      .ok ⟨"Interval Start" :: "Interval End" :: df.cols.eraseIdx j,
           (df.rows.zip es).map
             (fun rt => .time (rt.2 - d) :: .time rt.2 :: rt.1.eraseIdx j)⟩ ∧
    (df.cols.Nodup →
      "period" ∉ "Interval Start" :: "Interval End" :: df.cols.eraseIdx j) ∧
    ∀ i (h1 : i < df.rows.length) (h2 : i < es.length),
      periodVal parse j (df.rows.get ⟨i, h1⟩) = .ok (es.get ⟨i, h2⟩) := by
  refine ⟨?_, ?_, fun i h1 h2 => mapME_ok_get hes i h1 h2⟩
  · unfold _handle_time
    rw [hj, hd]
    dsimp only
    rw [hes]
  · intro hnd
    obtain ⟨hjl, hpj, _⟩ := List.findIdx?_eq_some_iff_getElem.1 hj
    simp only [List.mem_cons, not_or]
    refine ⟨by decide, by decide, ?_⟩
    intro hmem
    obtain ⟨i, hij, hi⟩ := List.mem_eraseIdx_iff_getElem?.1 hmem
    have hil : i < df.cols.length := by
      by_contra hge
      rw [List.getElem?_eq_none (by omega)] at hi
      cases hi
    rw [List.getElem?_eq_getElem hil] at hi
    have hieq : df.cols[i] = df.cols[j] := by
      simp only [Option.some.injEq] at hi
      rw [hi]
      exact (by simpa using hpj : df.cols[j] = "period").symm
    exact hij ((hnd.getElem_inj_iff).1 hieq)

/-- A concrete timestamp parser covering the labels of the fixtures. -/
def parseT : String → Option ℤ := fun s =>
  if s = "2024-01-01T00" then some 0
  else if s = "2024-01-01T01" then some 60
  else none

/-- A raw interchange page: two rows for the same hour, `From BA` "B"
listed before "A". -/
def interW : DF :=
  ⟨["period", "fromba", "fromba-name", "toba", "toba-name", "value"],
   [[.str "2024-01-01T01", .str "B", .str "B name", .str "X", .str "X name", .int 3],
    [.str "2024-01-01T01", .str "A", .str "A name", .str "Y", .str "Y name", .int 4]]⟩

/-- What the interchange transform makes of `interW`: canonical columns,
and with identical `Interval Start` the row with `From BA` "A" precedes "B". -/
def interOutW : DF :=
  ⟨INTERCHANGE_COLS,
   [[.time 0, .time 60, .str "A", .str "A name", .str "Y", .str "Y name", .int 4],
    [.time 0, .time 60, .str "B", .str "B name", .str "X", .str "X name", .int 3]]⟩

theorem c6_interchange_sorted_witness :
    _handle_rto_interchange parseT interW = .ok interOutW ∧
    interOutW.cols = INTERCHANGE_COLS ∧
    interOutW.rows.Pairwise (rowLe [0, 2]) := by
  refine ⟨by rfl, ?_, ?_⟩
  · exact (c6_interchange_sorted parseT interW interOutW (by rfl)).1
  · exact (c6_interchange_sorted parseT interW interOutW (by rfl)).2

theorem c7_time_normalizer_witness :
    interW.colIdx "period" = some 0 ∧
    Timedelta "1h" = some 60 ∧
    mapME (periodVal parseT 0) interW.rows = .ok [60, 60] ∧
    _handle_time parseT interW "1h" =
      .ok ⟨"Interval Start" :: "Interval End" :: interW.cols.eraseIdx 0,
           (interW.rows.zip [60, 60]).map
             (fun rt => .time (rt.2 - 60) :: .time rt.2 :: rt.1.eraseIdx 0)⟩ := by
  refine ⟨rfl, rfl, rfl, ?_⟩
  exact (c7_time_normalizer parseT interW "1h" 60 0 [60, 60] rfl rfl rfl).1

/-! ## Region data: `_handle_region_data` (C4, C10) -/

/-- One long-format region-data record as the API reports it. -/
structure RegionRec where
  period : String
  respondent : String
  respondentName : String
  typeCode : String
  value : Val
  deriving DecidableEq, Repr

/-- The raw columns of a region-data page. -/
def regionRawCols : List String :=
  ["period", "respondent", "respondent-name", "type", "value"]

/-- The raw row of one record. -/
def regionRowOf (r : RegionRec) : List Val :=
  [.str r.period, .str r.respondent, .str r.respondentName, .str r.typeCode, r.value]

/-- A long-format region-data table. -/
def mkRegionDF (recs : List RegionRec) : DF :=
  ⟨regionRawCols, recs.map regionRowOf⟩

/-- Well-formed region input: parseable periods and `Int64`-like values
(what the transform requires merely to get past `pd.to_datetime` and
`astype("Int64")`). -/
def RegionWF (parse : String → Option ℤ) (recs : List RegionRec) : Prop :=
  ∀ r ∈ recs, (parse r.period).isSome = true ∧ r.value.isIntNa = true

/-- The parsed interval-end timestamp of a record. -/
def tsOf (parse : String → Option ℤ) (r : RegionRec) : ℤ :=
  (parse r.period).getD 0

/-- The pivot index key of a record. -/
def regionKeyOf (parse : String → Option ℤ) (r : RegionRec) : List Val :=
  [.time (tsOf parse r - 60), .time (tsOf parse r), .str r.respondent,
   .str r.respondentName]

/-- The records the pivot consumes: recognized type codes mapped to their
labels; rows with an unrecognized code are dropped. -/
def regionRecsOf (parse : String → Option ℤ) (recs : List RegionRec) :
    List (List Val × String × Val) :=
  recs.filterMap (fun r =>
    match TYPE_MAP.lookup r.typeCode with
    | some l => some (regionKeyOf parse r, l, r.value)
    | none => none)

/-- The pivot index columns of the region transform. -/
def regionIndex : List String :=
  ["Interval Start", "Interval End", "Respondent", "Respondent Name"]

/-- The four value-column labels in their sorted (pivot output) order. -/
def LABELS4 : List String :=
  ["Load", "Load Forecast", "Net Generation", "Total Interchange"]

/-- The intermediate column lists of the transform. -/
def regionCols6 : List String :=
  ["Interval Start", "Interval End", "respondent", "respondent-name", "type", "value"]

def regionCols6R : List String :=
  ["Interval Start", "Interval End", "Respondent", "Respondent Name", "Type", "MW"]

/-- The row of a record after the time normalizer. -/
def regionRow6 (parse : String → Option ℤ) (r : RegionRec) : List Val :=
  [.time (tsOf parse r - 60), .time (tsOf parse r), .str r.respondent,
   .str r.respondentName, .str r.typeCode, r.value]

/-- The row of a record after the type-code mapping. -/
def regionRow6T (parse : String → Option ℤ) (r : RegionRec) : List Val :=
  [.time (tsOf parse r - 60), .time (tsOf parse r), .str r.respondent,
   .str r.respondentName, mapType (.str r.typeCode), r.value]

/-- The period of a raw region row, as the time normalizer reads it. -/
def periodOfRow (parse : String → Option ℤ) (row : List Val) : ℤ :=
  match row.getD 0 Val.na with
  | .str s => (parse s).getD 0
  | _ => 0

lemma castInt64_intNa {v : Val} (h : v.isIntNa = true) : DF.castInt64 v = .ok v := by
  cases v <;> simp_all [Val.isIntNa, DF.castInt64]

lemma TYPE_MAP_lookup_mem {s l : String} (h : TYPE_MAP.lookup s = some l) :
    l ∈ REGION_VALUE_COLS := by
  simp only [TYPE_MAP, List.lookup] at h
  repeat' split at h
  all_goals simp_all [REGION_VALUE_COLS]

lemma regionRecsOf_mem {parse : String → Option ℤ} {recs : List RegionRec}
    {t : List Val × String × Val} (ht : t ∈ regionRecsOf parse recs) :
    ∃ r ∈ recs, ∃ l, TYPE_MAP.lookup r.typeCode = some l ∧
      t = (regionKeyOf parse r, l, r.value) := by
  unfold regionRecsOf at ht
  obtain ⟨r, hr, hfr⟩ := List.mem_filterMap.1 ht
  cases hl : TYPE_MAP.lookup r.typeCode <;> rw [hl] at hfr
  · simp at hfr
  · simp only [Option.some.injEq] at hfr
    exact ⟨r, hr, _, hl, hfr.symm⟩

lemma region_handle_time (parse : String → Option ℤ) (recs : List RegionRec)
    (hw : RegionWF parse recs) :
    _handle_time parse (mkRegionDF recs) "1h" =
      .ok ⟨regionCols6, recs.map (regionRow6 parse)⟩ := by
  have hparse : ∀ r ∈ recs, parse r.period = some (tsOf parse r) := by
    intro r hr
    have h := (hw r hr).1
    cases hp : parse r.period with
    | none => rw [hp] at h; simp at h
    | some t => simp [tsOf, hp]
  have hmap : mapME (periodVal parse 0) (mkRegionDF recs).rows =
      .ok (recs.map (tsOf parse)) := by
    have hall : ∀ x ∈ recs.map regionRowOf,
        periodVal parse 0 x = .ok (periodOfRow parse x) := by
      intro x hx
      obtain ⟨r, hr, rfl⟩ := List.mem_map.1 hx
      have hp := hparse r hr
      have hstep : periodVal parse 0 (regionRowOf r) =
          match parse r.period with
          | some t => Except.ok t
          | none => Except.error "ParseError" := rfl
      rw [hstep, hp]
      rfl
    show mapME (periodVal parse 0) (recs.map regionRowOf) = .ok (recs.map (tsOf parse))
    rw [mapME_ok_of _ (periodOfRow parse) _ hall, List.map_map]
    rfl
  unfold _handle_time
  rw [show (mkRegionDF recs).colIdx "period" = some 0 from rfl]
  dsimp only
  rw [show Timedelta "1h" = some 60 from rfl]
  dsimp only
  rw [hmap]
  dsimp only
  refine congrArg Except.ok ?_
  refine congrArg (DF.mk regionCols6) ?_
  show ((recs.map regionRowOf).zip (recs.map (tsOf parse))).map _ = _
  rw [List.zip_map', List.map_map]
  exact List.map_congr_left (fun r hr => rfl)

lemma region_mapType (parse : String → Option ℤ) (recs : List RegionRec) :
    DF.mapCol ⟨regionCols6R, recs.map (regionRow6 parse)⟩ "Type" mapType =
      .ok ⟨regionCols6R, recs.map (regionRow6T parse)⟩ := by
  unfold DF.mapCol
  rw [show DF.colIdx ⟨regionCols6R, recs.map (regionRow6 parse)⟩ "Type" = some 4 from rfl]
  dsimp only
  refine congrArg Except.ok (congrArg (DF.mk regionCols6R) ?_)
  rw [List.map_map]
  exact List.map_congr_left (fun r hr => rfl)

lemma region_astypeMW (parse : String → Option ℤ) (recs : List RegionRec)
    (hw : RegionWF parse recs) :
    DF.astypeInt64 ⟨regionCols6R, recs.map (regionRow6T parse)⟩ "MW" =
      .ok ⟨regionCols6R, recs.map (regionRow6T parse)⟩ := by
  unfold DF.astypeInt64
  rw [show DF.colIdx ⟨regionCols6R, recs.map (regionRow6T parse)⟩ "MW" = some 5 from rfl]
  dsimp only
  have hall : ∀ x ∈ recs.map (regionRow6T parse),
      Except.map (fun v => x.set 5 v) (DF.castInt64 (x.getD 5 Val.na)) = .ok (id x) := by
    intro x hx
    obtain ⟨r, hr, rfl⟩ := List.mem_map.1 hx
    rw [show (regionRow6T parse r).getD 5 Val.na = r.value from rfl]
    rw [castInt64_intNa (hw r hr).2]
    rfl
  rw [mapME_ok_of _ id _ hall, List.map_id]

lemma region_pivotRecs (parse : String → Option ℤ) (recs : List RegionRec) :
    pivotRecs ⟨regionCols6R, recs.map (regionRow6T parse)⟩ [0, 1, 2, 3] 4 5 =
      regionRecsOf parse recs := by
  unfold pivotRecs regionRecsOf
  show (recs.map (regionRow6T parse)).filterMap _ = _
  rw [List.filterMap_map]
  refine List.filterMap_congr (fun r hr => ?_)
  show (match mapType (.str r.typeCode) with
      | Val.str s =>
        let k := List.map (fun i => (regionRow6T parse r).getD i Val.na) [0, 1, 2, 3]
        if k.any Val.isNa then none
        else some (k, s, (regionRow6T parse r).getD 5 Val.na)
      | _ => none) =
    (match TYPE_MAP.lookup r.typeCode with
      | some l => some (regionKeyOf parse r, l, r.value)
      | none => none)
  cases hl : TYPE_MAP.lookup r.typeCode with
  | none =>
    have hm : mapType (.str r.typeCode) = Val.na := by simp [mapType, hl]
    rw [hm]
  | some l =>
    have hm : mapType (.str r.typeCode) = .str l := by simp [mapType, hl]
    rw [hm]
    rfl

lemma region_guard (parse : String → Option ℤ) (recs : List RegionRec)
    (hw : RegionWF parse recs) :
    (regionRecsOf parse recs).any (fun t => !t.2.2.isNumNa) = false := by
  rw [List.any_eq_false]
  intro t ht
  obtain ⟨r, hr, l, hl, rfl⟩ := regionRecsOf_mem ht
  have hv := (hw r hr).2
  cases hvv : r.value <;> simp_all [Val.isIntNa, Val.isNumNa]

lemma region_eval (parse : String → Option ℤ) (recs : List RegionRec)
    (hw : RegionWF parse recs) :
    _handle_region_data parse (mkRegionDF recs) =
      astypeAll REGION_VALUE_COLS (pivotFromRecs regionIndex (regionRecsOf parse recs)) := by
  unfold _handle_region_data
  rw [region_handle_time parse recs hw]
  simp only [Bind.bind, Except.bind]
  rw [show DF.renameCols ⟨regionCols6, recs.map (regionRow6 parse)⟩
        [("value", "MW"), ("respondent", "Respondent"),
         ("respondent-name", "Respondent Name"), ("type", "Type")] =
      ⟨regionCols6R, recs.map (regionRow6 parse)⟩ from rfl]
  rw [region_mapType parse recs]
  simp only [Bind.bind, Except.bind]
  rw [region_astypeMW parse recs hw]
  simp only [Bind.bind, Except.bind]
  unfold DF.pivot_table
  rw [show mapME (fun c => getEx (DF.colIdx ⟨regionCols6R, recs.map (regionRow6T parse)⟩ c)
        ("KeyError: " ++ c))
        ["Interval Start", "Interval End", "Respondent", "Respondent Name"] =
      .ok [0, 1, 2, 3] from rfl]
  dsimp only
  rw [show getEx (DF.colIdx ⟨regionCols6R, recs.map (regionRow6T parse)⟩ "Type")
        ("KeyError: " ++ "Type") = .ok 4 from rfl]
  dsimp only
  rw [show getEx (DF.colIdx ⟨regionCols6R, recs.map (regionRow6T parse)⟩ "MW")
        ("KeyError: " ++ "MW") = .ok 5 from rfl]
  dsimp only
  rw [region_pivotRecs parse recs, region_guard parse recs hw]
  simp only [Bool.false_eq_true, if_false]
  rfl

/-- What `.astype("Int64")` makes of a castable cell. -/
def castOk (v : Val) : Val :=
  match DF.castInt64 v with
  | .ok w => w
  | .error _ => .na

/-- A cell the post-pivot fix-up can cast: missing, an integral float (what
`mean` of a one-element integer group returns), or already `Int64`. -/
def goodCell (v : Val) : Prop :=
  v = Val.na ∨ (∃ n : ℤ, v = .rat (n : ℚ)) ∨ v.isIntNa = true

lemma castInt64_goodCell {v : Val} (h : goodCell v) :
    DF.castInt64 v = .ok (castOk v) ∧ (castOk v).isIntNa = true := by
  rcases h with rfl | ⟨n, rfl⟩ | h
  · exact ⟨rfl, rfl⟩
  · constructor
    · simp [DF.castInt64, castOk, Rat.den_intCast]
    · simp [DF.castInt64, castOk, Rat.den_intCast, Val.isIntNa]
  · rw [castInt64_intNa h]
    unfold castOk
    rw [castInt64_intNa h]
    exact ⟨rfl, h⟩

lemma length_filter_le_one_of_nodup_map {α β : Type} (l : List α) (f : α → β)
    (hn : (l.map f).Nodup) (p : α → Bool) (b : β) (hp : ∀ x, p x = true → f x = b) :
    (l.filter p).length ≤ 1 := by
  induction l with
  | nil => simp
  | cons a t ih =>
    simp only [List.map_cons, List.nodup_cons] at hn
    by_cases hpa : p a = true
    · rw [List.filter_cons_of_pos hpa]
      have ht : t.filter p = [] := by
        rw [List.filter_eq_nil_iff]
        intro x hx hpx
        exact hn.1 (List.mem_map.2 ⟨x, hx, (hp x hpx).trans (hp a hpa).symm⟩)
      simp [ht]
    · rw [List.filter_cons_of_neg (by simpa using hpa)]
      exact ih hn.2

lemma pivotCell_good (pr : List (List Val × String × Val))
    (hvals : ∀ t ∈ pr, t.2.2.isIntNa = true)
    (hnodup : (pr.map (fun t => (t.1, t.2.1))).Nodup) (k : List Val) (c : String) :
    goodCell (pivotCell pr k c) := by
  unfold pivotCell
  have hlen := length_filter_le_one_of_nodup_map pr (fun t => (t.1, t.2.1)) hnodup
    (fun t => decide (t.1 = k) && decide (t.2.1 = c) && !t.2.2.isNa) (k, c)
    (fun t hpt => by
      simp only [Bool.and_eq_true, decide_eq_true_eq] at hpt
      show (t.1, t.2.1) = (k, c)
      rw [hpt.1.1, hpt.1.2])
  rcases hll : pr.filter (fun t => decide (t.1 = k) && decide (t.2.1 = c) && !t.2.2.isNa)
    with _ | ⟨t1, tl⟩
  · rw [hll]
    left
    rfl
  · rcases tl with _ | ⟨t2, tl2⟩
    · have ht1 : t1 ∈ pr.filter
          (fun t => decide (t.1 = k) && decide (t.2.1 = c) && !t.2.2.isNa) := by
        rw [hll]
        simp
      have ht1f := List.mem_filter.1 ht1
      obtain ⟨n, hn⟩ : ∃ n : ℤ, t1.2.2 = .int n := by
        have hna := ht1f.2
        simp only [Bool.and_eq_true, Bool.not_eq_eq_eq_not, Bool.not_true] at hna
        have := hvals t1 ht1f.1
        cases hv : t1.2.2 <;> simp_all [Val.isIntNa, Val.isNa]
      rw [hll]
      simp only [List.map_cons, List.map_nil]
      rw [hn]
      refine Or.inr (Or.inl ⟨n, ?_⟩)
      simp [meanVal, Val.toRat]
    · exfalso
      rw [hll] at hlen
      simp at hlen

lemma region_labels (pr : List (List Val × String × Val))
    (hsub : ∀ t ∈ pr, t.2.1 ∈ REGION_VALUE_COLS)
    (hcodes : ∀ c ∈ REGION_VALUE_COLS, ∃ t ∈ pr, t.2.1 = c ∧ t.2.2 ≠ Val.na) :
    (List.insertionSort strLeP ((pr.map (fun t => t.2.1)).dedup)).filter
      (fun c => pr.any fun t => decide (t.2.1 = c) && !t.2.2.isNa) = LABELS4 := by
  have hmemeq : ∀ a : String, a ∈ REGION_VALUE_COLS ↔ a ∈ LABELS4 := by
    intro a
    simp only [REGION_VALUE_COLS, LABELS4, List.mem_cons, List.not_mem_nil, or_false]
    tauto
  have hperm : List.Perm (List.insertionSort strLeP ((pr.map (fun t => t.2.1)).dedup))
      LABELS4 := by
    refine (List.perm_insertionSort strLeP _).trans ?_
    refine (List.perm_ext_iff_of_nodup (List.nodup_dedup _) (by decide)).2 ?_
    intro a
    rw [List.mem_dedup, List.mem_map]
    constructor
    · rintro ⟨t, ht, rfl⟩
      exact (hmemeq _).1 (hsub t ht)
    · intro ha
      obtain ⟨t, ht, hco, _⟩ := hcodes a ((hmemeq a).2 ha)
      exact ⟨t, ht, hco⟩
  have heq : List.insertionSort strLeP ((pr.map (fun t => t.2.1)).dedup) = LABELS4 :=
    List.eq_of_perm_of_sorted hperm (List.sorted_insertionSort _ _) (by decide)
  rw [heq]
  refine List.filter_eq_self.2 ?_
  intro c hc
  obtain ⟨t, ht, hco, hna⟩ := hcodes c ((hmemeq c).2 hc)
  refine List.any_eq_true.2 ⟨t, ht, ?_⟩
  have hnab : t.2.2.isNa = false := by
    cases hv : t.2.2 <;> simp_all [Val.isNa]
  simp [hco, hnab]

/-- One post-pivot fix-up pass on a row: cast the cell at position `j`. -/
def gpass (j : Nat) (row : List Val) : List Val :=
  row.set j (castOk (row.getD j Val.na))

/-- All four fix-up passes, in the source's column order (positions 4, 6,
5, 7 of the pivoted table). -/
def regionFinalize (row : List Val) : List Val :=
  gpass 7 (gpass 5 (gpass 6 (gpass 4 row)))

/-- The row shape the pivot produces: a four-cell key of timestamps and
strings followed by four castable value cells. -/
def RowOk8 (row : List Val) : Prop :=
  ∃ a1 a2 a3 a4 c1 c2 c3 c4, row = [a1, a2, a3, a4, c1, c2, c3, c4] ∧
    goodCell c1 ∧ goodCell c2 ∧ goodCell c3 ∧ goodCell c4

lemma astype_pass (rows : List (List Val)) (c : String) (j : Nat)
    (hj : DF.colIdx ⟨regionIndex ++ LABELS4, rows⟩ c = some j)
    (hj47 : j = 4 ∨ j = 5 ∨ j = 6 ∨ j = 7)
    (hshape : ∀ row ∈ rows, RowOk8 row) :
    DF.astypeInt64 ⟨regionIndex ++ LABELS4, rows⟩ c =
      .ok ⟨regionIndex ++ LABELS4, rows.map (gpass j)⟩ ∧
    ∀ row ∈ rows.map (gpass j), RowOk8 row := by
  have hall : ∀ row ∈ rows,
      Except.map (fun v => row.set j v) (DF.castInt64 (row.getD j Val.na)) =
        .ok (gpass j row) := by
    intro row hrow
    obtain ⟨a1, a2, a3, a4, c1, c2, c3, c4, rfl, h1, h2, h3, h4⟩ := hshape row hrow
    rcases hj47 with rfl | rfl | rfl | rfl
    · rw [show ([a1, a2, a3, a4, c1, c2, c3, c4] : List Val).getD 4 Val.na = c1 from rfl,
        (castInt64_goodCell h1).1]
      rfl
    · rw [show ([a1, a2, a3, a4, c1, c2, c3, c4] : List Val).getD 5 Val.na = c2 from rfl,
        (castInt64_goodCell h2).1]
      rfl
    · rw [show ([a1, a2, a3, a4, c1, c2, c3, c4] : List Val).getD 6 Val.na = c3 from rfl,
        (castInt64_goodCell h3).1]
      rfl
    · rw [show ([a1, a2, a3, a4, c1, c2, c3, c4] : List Val).getD 7 Val.na = c4 from rfl,
        (castInt64_goodCell h4).1]
      rfl
  constructor
  · unfold DF.astypeInt64
    rw [hj]
    dsimp only
    rw [mapME_ok_of _ (gpass j) rows hall]
  · intro row hrow
    obtain ⟨r0, hr0, rfl⟩ := List.mem_map.1 hrow
    obtain ⟨a1, a2, a3, a4, c1, c2, c3, c4, rfl, h1, h2, h3, h4⟩ := hshape r0 hr0
    have hgood : ∀ v : Val, goodCell v → goodCell (castOk v) := by
      intro v hv
      exact Or.inr (Or.inr (castInt64_goodCell hv).2)
    rcases hj47 with rfl | rfl | rfl | rfl
    · exact ⟨a1, a2, a3, a4, castOk c1, c2, c3, c4, rfl, hgood c1 h1, h2, h3, h4⟩
    · exact ⟨a1, a2, a3, a4, c1, castOk c2, c3, c4, rfl, h1, hgood c2 h2, h3, h4⟩
    · exact ⟨a1, a2, a3, a4, c1, c2, castOk c3, c4, rfl, h1, h2, hgood c3 h3, h4⟩
    · exact ⟨a1, a2, a3, a4, c1, c2, c3, castOk c4, rfl, h1, h2, h3, hgood c4 h4⟩

lemma astypeAll_region (rows : List (List Val))
    (hshape : ∀ row ∈ rows, RowOk8 row) :
    astypeAll REGION_VALUE_COLS ⟨regionIndex ++ LABELS4, rows⟩ =
      .ok ⟨regionIndex ++ LABELS4, rows.map regionFinalize⟩ := by
  obtain ⟨he4, hs4⟩ := astype_pass rows "Load" 4 rfl (by tauto) hshape
  obtain ⟨he6, hs6⟩ := astype_pass (rows.map (gpass 4)) "Net Generation" 6 rfl (by tauto) hs4
  obtain ⟨he5, hs5⟩ := astype_pass ((rows.map (gpass 4)).map (gpass 6)) "Load Forecast" 5
    rfl (by tauto) hs6
  obtain ⟨he7, _⟩ := astype_pass (((rows.map (gpass 4)).map (gpass 6)).map (gpass 5))
    "Total Interchange" 7 rfl (by tauto) hs5
  simp only [REGION_VALUE_COLS, astypeAll, he4, he6, he5, he7]
  refine congrArg Except.ok (congrArg (DF.mk (regionIndex ++ LABELS4)) ?_)
  simp only [List.map_map]
  rfl

lemma regionFinalize_spec (row : List Val) (h : RowOk8 row) :
    (regionFinalize row).take 4 = row.take 4 ∧ (regionFinalize row).length = 8 ∧
      ∀ v ∈ (regionFinalize row).drop 4, v.isIntNa = true := by
  obtain ⟨a1, a2, a3, a4, c1, c2, c3, c4, rfl, h1, h2, h3, h4⟩ := h
  have he : regionFinalize [a1, a2, a3, a4, c1, c2, c3, c4] =
      [a1, a2, a3, a4, castOk c1, castOk c2, castOk c3, castOk c4] := rfl
  rw [he]
  refine ⟨rfl, rfl, ?_⟩
  intro v hv
  simp only [List.drop, List.mem_cons, List.not_mem_nil, or_false] at hv
  rcases hv with rfl | rfl | rfl | rfl
  · exact (castInt64_goodCell h1).2
  · exact (castInt64_goodCell h2).2
  · exact (castInt64_goodCell h3).2
  · exact (castInt64_goodCell h4).2

lemma region_keys_perm (pr : List (List Val × String × Val)) :
    List.Perm
      ((List.insertionSort Val.listLe ((pr.map (fun t => t.1)).dedup)).filter
        (fun k => pr.any fun t => decide (t.1 = k) && !t.2.2.isNa))
      (((pr.filter (fun t => !t.2.2.isNa)).map (fun t => t.1)).dedup) := by
  refine ((List.perm_insertionSort Val.listLe _).filter _).trans ?_
  refine (List.perm_ext_iff_of_nodup
    (List.Nodup.filter _ (List.nodup_dedup _)) (List.nodup_dedup _)).2 ?_
  intro k
  simp only [List.mem_filter, List.mem_dedup, List.mem_map, List.any_eq_true,
    Bool.and_eq_true, decide_eq_true_eq, Bool.not_eq_eq_eq_not, Bool.not_true]
  constructor
  · rintro ⟨⟨t, ht, rfl⟩, u, hu, hke, hna⟩
    exact ⟨u, ⟨hu, hna⟩, hke⟩
  · rintro ⟨u, ⟨hu, hna⟩, rfl⟩
    exact ⟨⟨u, hu, rfl⟩, u, hu, rfl, hna⟩

/-- C4 (amended): for every long-format region-data input whose periods
parse and whose values are `Int64`-like, in which *each of the four type
codes occurs with at least one non-null value* and no (key, type) pair is
duplicated, the transform succeeds and pivots the rows into exactly one
output row per distinct `(Interval Start, Interval End, Respondent,
Respondent Name)` key carrying at least one non-null value (pandas
`pivot_table`'s `dropna` removes a key whose cells are all null), with all
four value columns present and nullable-integer typed.  (When a code is
entirely absent the transform instead raises a `KeyError` — see the
counterexample.) -/
theorem c4_region_pivot (parse : String → Option ℤ) (recs : List RegionRec)
    (hw : RegionWF parse recs)
    (hcodes : ∀ c ∈ REGION_VALUE_COLS, ∃ t ∈ regionRecsOf parse recs,
      t.2.1 = c ∧ t.2.2 ≠ Val.na)
    (hnodup : ((regionRecsOf parse recs).map (fun t => (t.1, t.2.1))).Nodup) :
    ∃ out, _handle_region_data parse (mkRegionDF recs) = .ok out ∧
      out.cols = regionIndex ++ LABELS4 ∧
      out.rows.length =
        ((((regionRecsOf parse recs).filter (fun t => !t.2.2.isNa)).map
          (fun t => t.1)).dedup).length ∧
      (out.rows.map (fun r => r.take 4)).Nodup ∧
      ∀ row ∈ out.rows, row.length = 8 ∧ ∀ v ∈ row.drop 4, v.isIntNa = true := by
  have hvals : ∀ t ∈ regionRecsOf parse recs, t.2.2.isIntNa = true := by
    intro t ht
    obtain ⟨r, hr, l, hl, rfl⟩ := regionRecsOf_mem ht
    exact (hw r hr).2
  have hsub : ∀ t ∈ regionRecsOf parse recs, t.2.1 ∈ REGION_VALUE_COLS := by
    intro t ht
    obtain ⟨r, hr, l, hl, rfl⟩ := regionRecsOf_mem ht
    exact TYPE_MAP_lookup_mem hl
  have hkeyshape : ∀ k ∈ (List.insertionSort Val.listLe
      (((regionRecsOf parse recs).map (fun t => t.1)).dedup)).filter
        (fun k => (regionRecsOf parse recs).any fun t => decide (t.1 = k) && !t.2.2.isNa),
      ∃ r : RegionRec, k = regionKeyOf parse r := by
    intro k hk
    have hk1 := (List.mem_filter.1 hk).1
    have hk2 : k ∈ ((regionRecsOf parse recs).map (fun t => t.1)).dedup :=
      (List.perm_insertionSort _ _).mem_iff.1 hk1
    obtain ⟨t, ht, rfl⟩ := List.mem_map.1 (List.mem_dedup.1 hk2)
    obtain ⟨r, hr, l, hl, rfl⟩ := regionRecsOf_mem ht
    exact ⟨r, rfl⟩
  have hlabels := region_labels (regionRecsOf parse recs) hsub hcodes
  have hpiv : pivotFromRecs regionIndex (regionRecsOf parse recs) =
      ⟨regionIndex ++ LABELS4,
       ((List.insertionSort Val.listLe
          (((regionRecsOf parse recs).map (fun t => t.1)).dedup)).filter
            (fun k => (regionRecsOf parse recs).any fun t =>
              decide (t.1 = k) && !t.2.2.isNa)).map
         (fun k => k ++ LABELS4.map (pivotCell (regionRecsOf parse recs) k))⟩ := by
    unfold pivotFromRecs
    dsimp only
    rw [hlabels]
  have hshape : ∀ row ∈ ((List.insertionSort Val.listLe
      (((regionRecsOf parse recs).map (fun t => t.1)).dedup)).filter
        (fun k => (regionRecsOf parse recs).any fun t => decide (t.1 = k) && !t.2.2.isNa)).map
        (fun k => k ++ LABELS4.map (pivotCell (regionRecsOf parse recs) k)), RowOk8 row := by
    intro row hrow
    obtain ⟨k, hk, rfl⟩ := List.mem_map.1 hrow
    obtain ⟨r, rfl⟩ := hkeyshape k hk
    exact ⟨.time (tsOf parse r - 60), .time (tsOf parse r), .str r.respondent,
      .str r.respondentName,
      pivotCell (regionRecsOf parse recs) (regionKeyOf parse r) "Load",
      pivotCell (regionRecsOf parse recs) (regionKeyOf parse r) "Load Forecast",
      pivotCell (regionRecsOf parse recs) (regionKeyOf parse r) "Net Generation",
      pivotCell (regionRecsOf parse recs) (regionKeyOf parse r) "Total Interchange", rfl,
      pivotCell_good _ hvals hnodup _ _, pivotCell_good _ hvals hnodup _ _,
      pivotCell_good _ hvals hnodup _ _, pivotCell_good _ hvals hnodup _ _⟩
  refine ⟨⟨regionIndex ++ LABELS4,
    (((List.insertionSort Val.listLe
      (((regionRecsOf parse recs).map (fun t => t.1)).dedup)).filter
        (fun k => (regionRecsOf parse recs).any fun t => decide (t.1 = k) && !t.2.2.isNa)).map
      (fun k => k ++ LABELS4.map (pivotCell (regionRecsOf parse recs) k))).map regionFinalize⟩,
    ?_, rfl, ?_, ?_, ?_⟩
  · rw [region_eval parse recs hw, hpiv]
    exact astypeAll_region _ hshape
  · simp only [List.length_map]
    exact (region_keys_perm (regionRecsOf parse recs)).length_eq
  · have htake : ((((List.insertionSort Val.listLe
        (((regionRecsOf parse recs).map (fun t => t.1)).dedup)).filter
          (fun k => (regionRecsOf parse recs).any fun t => decide (t.1 = k) && !t.2.2.isNa)).map
          (fun k => k ++ LABELS4.map (pivotCell (regionRecsOf parse recs) k))).map
            regionFinalize).map (fun r => r.take 4) =
        (List.insertionSort Val.listLe
          (((regionRecsOf parse recs).map (fun t => t.1)).dedup)).filter
            (fun k => (regionRecsOf parse recs).any fun t =>
              decide (t.1 = k) && !t.2.2.isNa) := by
      simp only [List.map_map]
      have := List.map_congr_left (l := (List.insertionSort Val.listLe
        (((regionRecsOf parse recs).map (fun t => t.1)).dedup)).filter
          (fun k => (regionRecsOf parse recs).any fun t => decide (t.1 = k) && !t.2.2.isNa))
        (f := (fun r => r.take 4) ∘ regionFinalize ∘
          (fun k => k ++ LABELS4.map (pivotCell (regionRecsOf parse recs) k)))
        (g := id)
        (fun k hk => by
          obtain ⟨r, rfl⟩ := hkeyshape k hk
          rfl)
      rw [this, List.map_id]
    rw [htake]
    exact List.Nodup.filter _
      (((List.perm_insertionSort _ _).nodup_iff).2 (List.nodup_dedup _))
  · intro row hrow
    obtain ⟨row0, hrow0, rfl⟩ := List.mem_map.1 hrow
    have h8 := regionFinalize_spec row0 (hshape row0 hrow0)
    exact ⟨h8.2.1, h8.2.2⟩

/-- C10 (amended): a row whose type code is not one of D, TI, NG, DF is
mapped to a null label and silently dropped by the pivot: inserting such a
row (with a parseable period and an `Int64`-like value) anywhere into a
well-formed input leaves the transform's entire result — table or error —
unchanged, so no data from the unrecognized code ever reaches the output
and the extra row raises no error of its own.  (On an input consisting
only of such rows the transform still fails for a different reason — the
four expected columns are absent — see the counterexample.) -/
theorem c10_unrecognized_dropped (parse : String → Option ℤ)
    (recs1 recs2 : List RegionRec) (x : RegionRec)
    (hw : RegionWF parse (recs1 ++ recs2))
    (hxp : (parse x.period).isSome = true) (hxv : x.value.isIntNa = true)
    (hxt : TYPE_MAP.lookup x.typeCode = none) :
    _handle_region_data parse (mkRegionDF (recs1 ++ x :: recs2)) =
      _handle_region_data parse (mkRegionDF (recs1 ++ recs2)) := by
  have hw2 : RegionWF parse (recs1 ++ x :: recs2) := by
    intro r hr
    rcases List.mem_append.1 hr with h | h
    · exact hw r (List.mem_append.2 (Or.inl h))
    · rcases List.mem_cons.1 h with rfl | h
      · exact ⟨hxp, hxv⟩
      · exact hw r (List.mem_append.2 (Or.inr h))
  rw [region_eval parse _ hw2, region_eval parse _ hw]
  have hrecs : regionRecsOf parse (recs1 ++ x :: recs2) =
      regionRecsOf parse (recs1 ++ recs2) := by
    unfold regionRecsOf
    rw [List.filterMap_append, List.filterMap_append, List.filterMap_cons]
    rw [hxt]
  rw [hrecs]

/-- A region-data page carrying only the code D: the transform crashes in
the post-pivot fix-up because the column of the first absent code is read
before it exists. -/
def regionOnlyD : DF :=
  mkRegionDF [⟨"2024-01-01T01", "CAL", "California", "D", .int 100⟩]

theorem c4_region_pivot_counterexample :
    _handle_region_data parseT regionOnlyD = .error "KeyError: Net Generation" := by
  with_unfolding_all rfl

/-- A region-data page carrying only an unrecognized code: every row is
dropped by the pivot and the fix-up raises on the first expected column. -/
def regionOnlyXX : DF :=
  mkRegionDF [⟨"2024-01-01T01", "CAL", "California", "XX", .int 5⟩]

theorem c10_unrecognized_dropped_counterexample :
    _handle_region_data parseT regionOnlyXX = .error "KeyError: Load" := by
  with_unfolding_all rfl

/-- A well-formed region input with all four codes for one key. -/
def regionRecs4 : List RegionRec :=
  [⟨"2024-01-01T01", "CAL", "California", "D", .int 100⟩,
   ⟨"2024-01-01T01", "CAL", "California", "TI", .int 7⟩,
   ⟨"2024-01-01T01", "CAL", "California", "NG", .int 93⟩,
   ⟨"2024-01-01T01", "CAL", "California", "DF", .int 110⟩]

theorem c4_region_pivot_witness :
    RegionWF parseT regionRecs4 ∧
    (∀ c ∈ REGION_VALUE_COLS, ∃ t ∈ regionRecsOf parseT regionRecs4,
      t.2.1 = c ∧ t.2.2 ≠ Val.na) ∧
    ((regionRecsOf parseT regionRecs4).map (fun t => (t.1, t.2.1))).Nodup ∧
    ∃ out, _handle_region_data parseT (mkRegionDF regionRecs4) = .ok out ∧
      out.cols = regionIndex ++ LABELS4 ∧
      out.rows.length =
        ((((regionRecsOf parseT regionRecs4).filter (fun t => !t.2.2.isNa)).map
          (fun t => t.1)).dedup).length ∧
      (out.rows.map (fun r => r.take 4)).Nodup ∧
      ∀ row ∈ out.rows, row.length = 8 ∧ ∀ v ∈ row.drop 4, v.isIntNa = true := by
  refine ⟨?_, ?_, ?_, ?_⟩
  · intro r hr
    fin_cases hr <;> exact ⟨rfl, rfl⟩
  · decide
  · decide
  · exact c4_region_pivot parseT regionRecs4
      (fun r hr => by fin_cases hr <;> exact ⟨rfl, rfl⟩) (by decide) (by decide)

/-- An unrecognized-code record with a parseable period. -/
def recXX : RegionRec := ⟨"2024-01-01T01", "CAL", "California", "XX", .int 5⟩

theorem c10_unrecognized_dropped_witness :
    RegionWF parseT (regionRecs4 ++ []) ∧
    (parseT recXX.period).isSome = true ∧
    recXX.value.isIntNa = true ∧
    TYPE_MAP.lookup recXX.typeCode = none ∧
    _handle_region_data parseT (mkRegionDF (regionRecs4 ++ recXX :: [])) =
      _handle_region_data parseT (mkRegionDF (regionRecs4 ++ [])) := by
  refine ⟨?_, rfl, rfl, rfl, ?_⟩
  · intro r hr
    fin_cases hr <;> exact ⟨rfl, rfl⟩
  · exact c10_unrecognized_dropped parseT regionRecs4 [] recXX
      (fun r hr => by fin_cases hr <;> exact ⟨rfl, rfl⟩) rfl rfl rfl
